import Mathlib

set_option maxHeartbeats 1000000

/-!
Verification of the agent-task orchestration core of the repository
(`OrchestratorQueue` in `src/server/routes.ts`).

The per-task pipeline (`executeTask`), the decision-trace recorder
(`traceDecision`), and the catch handler of `processQueue` are embedded as
pure functions over an environment `Env` describing the outcomes of the
external collaborators (storage, cost tracker, retry service).  Each
observable side effect (log emission, storage write, cost tracking) becomes
an `Effect` in an ordered list, so claims about ordering, status
transitions, trace step numbers and cost gating are statements about that
list.

The queue dispatcher (`enqueue` / `processQueue` / completion) is embedded
as a state machine on `QState`; one step corresponds to one synchronous
section of JavaScript code between `await` points, which is atomic in the
single-threaded event-loop model.

The circuit breaker consulted by the retry service is not part of the
sources (only its callers are); it is modelled from the spec where needed.
-/

/-- Run status, from the `status` values written by the pipeline
(`queued` is written by the caller before `enqueue`). -/
inductive RunStatus
  | queued
  | running
  | completed
  | failed
  | cancelled
deriving DecidableEq

/-- Message role used in `storage.createMessage` calls. -/
inductive Role
  | user
  | assistant
deriving DecidableEq

/-- The `stepType` values of decision traces (`InsertDecisionTrace["stepType"]`). -/
inductive StepType
  | provider_selection
  | context_analysis
  | retry
  | fallback
  | model_selection
  | tool_call
  | response_generation
  | error_handling
deriving DecidableEq

/-- Token usage attached to a provider response; `costEstimate` is the
parsed numerical value of the cost string (`parseFloat(costEstimate)`). -/
structure Usage where
  inputTokens : Nat
  outputTokens : Nat
  costEstimate : Rat
deriving DecidableEq

/-- One invocation of the `onAttempt` callback passed to
`retryService.callWithRetry`: either a same-provider retry
(`nextProvider` undefined) or a fallback transition. -/
inductive AttemptEvent
  | retryEv (attempt : Nat) (err : String)
  | fallbackEv (attempt : Nat) (err : String) (next : String)
deriving DecidableEq

/-- Aggregated result of `retryService.callWithRetry`, together with the
sequence of `onAttempt` callback invocations that occurred during it. -/
structure RetryResult where
  success : Bool
  content : String
  usage : Option Usage
  usedProvider : String
  attempts : Nat
  error : Option String
  events : List AttemptEvent
deriving DecidableEq

/-- The fields of the agent run read by `executeTask` via
`storage.getAgentRun`. -/
structure RunInfo where
  provider : String
  model : String
deriving DecidableEq

/-- Environment of one task execution: outcomes of every external
collaborator call the pipeline makes.  A `Bool` field set to `false`
means that storage/tracker call throws; `traceOk n` tells whether the
`createDecisionTrace` persistence for step number `n` succeeds. -/
structure Env where
  run : Option RunInfo
  traceOk : Nat → Bool
  updateRunningOk : Bool
  createInputMsgOk : Bool
  response : RetryResult
  createOutputMsgOk : Bool
  updateCompletedOk : Bool
  trackCostOk : Bool
  org : Option Unit
  createUsageOk : Bool
  createAuditOk : Bool

/-- Observable side effects of one task execution, in order. -/
inductive Effect
  | logInfo
  | logWarning
  | logSuccess
  | logError (msg : String)
  | tracePersist (n : Nat) (st : StepType)
  | traceSwallowed (n : Nat) (st : StepType)
  | markRunning
  | markCompleted (cost : Rat)
  | markFailed (err : String)
  | createMessage (ro : Role)
  | invokeOrchestrator
  | trackCost (cost : Rat)
  | createUsageRecord
  | createAuditLog
deriving DecidableEq

/-- Result of one `traceDecision` call: the updated per-run step counter,
the emitted actions, and whether the call itself threw. -/
structure TraceOut where
  counter : Nat
  actions : List Effect
  result : Except String Unit

/-- The `storage.createDecisionTrace` collaborator: persists the trace row
for step number `n` or throws, as dictated by the environment. -/
def createDecisionTrace (env : Env) (n : Nat) (st : StepType) : Except String Effect :=
  if env.traceOk n then Except.ok (Effect.tracePersist n st)
  else Except.error "decision trace insert failed"

/-- `OrchestratorQueue.traceDecision`: increments the per-run step counter
(before the `try`), then attempts persistence; a persistence failure is
logged (`console.error`) and swallowed by the `catch`, never rethrown. -/
def traceDecision (env : Env) (c : Nat) (st : StepType) : TraceOut :=
  match createDecisionTrace env (c + 1) st with
  | Except.ok a => ⟨c + 1, [a], Except.ok ()⟩
  | Except.error _ => ⟨c + 1, [Effect.traceSwallowed (c + 1) st], Except.ok ()⟩

/-- The single action produced by a `traceDecision` call for step `n`:
a persisted trace row when persistence succeeds, a swallowed failure
otherwise. -/
def traceAct (env : Env) (n : Nat) (st : StepType) : Effect :=
  if env.traceOk n then Effect.tracePersist n st else Effect.traceSwallowed n st

/-- `const costEstimate = response.usage?.costEstimate || "0"`, parsed:
the cost defaults to 0 when no usage is returned. -/
def costOf (r : RetryResult) : Rat :=
  match r.usage with
  | some u => u.costEstimate
  | none => 0

/-- Step type recorded by the `onAttempt` callback: `fallback` when a next
provider is given, `retry` otherwise. -/
def eventStepType : AttemptEvent → StepType
  | AttemptEvent.retryEv _ _ => StepType.retry
  | AttemptEvent.fallbackEv _ _ _ => StepType.fallback

/-- The `onAttempt` callback of `executeTask`, run once per retry/fallback
event during `callWithRetry`: emits a warning log and records a trace,
threading the per-run step counter. -/
def processEvents (env : Env) : Nat → List AttemptEvent → Nat × List Effect
  | c, [] => (c, [])
  | c, e :: es =>
    let t := traceDecision env c (eventStepType e)
    let rest := processEvents env t.counter es
    (rest.1, (Effect.logWarning :: t.actions) ++ rest.2)

/-- Actions and outcome of (part of) one `executeTask` invocation. -/
structure ExecOut where
  actions : List Effect
  result : Except String Unit

/-- Tail of the success path: emit the success log, then
`storage.createAuditLog` (which may throw). -/
def auditTail (env : Env) : ExecOut :=
  if env.createAuditOk then ⟨[Effect.logSuccess, Effect.createAuditLog], Except.ok ()⟩
  else ⟨[Effect.logSuccess], Except.error "audit log insert failed"⟩

/-- `storage.getOrg` followed by the guarded `storage.createUsageRecord`:
the usage record is only written when the org lookup returns a row. -/
def finishTask (env : Env) : ExecOut :=
  match env.org with
  | some _ =>
    if env.createUsageOk then
      let t := auditTail env
      ⟨Effect.createUsageRecord :: t.actions, t.result⟩
    else ⟨[], Except.error "usage record insert failed"⟩
  | none => auditTail env

/-- Success path of `executeTask` after `response.success` is known true:
optional fallback-provider log, persist the assistant message, update the
run to `completed` with the cost, record the `response_generation` trace,
track cost only when the parsed estimate is strictly positive, then the
usage-record/audit tail.  `c` is the step counter after the orchestrator
call. -/
def execSuccessTail (env : Env) (run : RunInfo) (c : Nat) : ExecOut :=
  let fb : List Effect :=
    if env.response.usedProvider = run.provider then [] else [Effect.logInfo]
  if env.createOutputMsgOk then
    let a7 := fb ++ [Effect.createMessage Role.assistant]
    let cost := costOf env.response
    if env.updateCompletedOk then
      let a8 := a7 ++ (Effect.markCompleted cost ::
        (traceDecision env c StepType.response_generation).actions)
      if 0 < cost then
        let a9 := a8 ++ [Effect.trackCost cost]
        if env.trackCostOk then
          let t := finishTask env
          ⟨a9 ++ t.actions, t.result⟩
        else ⟨a9, Except.error "trackCost failed"⟩
      else
        let t := finishTask env
        ⟨a8 ++ t.actions, t.result⟩
    else ⟨a7, Except.error "run update failed"⟩
  else ⟨fb, Except.error "message insert failed"⟩

/-- `executeTask` from the orchestrator call onward: the retry service runs
the `onAttempt` callback for each retry/fallback event, then either the
failure branch (record an `error_handling` trace and throw the aggregated
error) or the success branch. -/
def execAfterCtx (env : Env) (run : RunInfo) : ExecOut :=
  let pe := processEvents env 2 env.response.events
  if env.response.success then
    let t := execSuccessTail env run pe.1
    ⟨pe.2 ++ t.actions, t.result⟩
  else
    ⟨pe.2 ++ (traceDecision env pe.1 StepType.error_handling).actions,
      Except.error (env.response.error.getD "Provider call failed")⟩

/-- `OrchestratorQueue.executeTask`: reset the per-run step counter to 0,
look up the run (throwing when absent), emit the starting log, record the
`provider_selection` trace, update the run to `running`, persist the input
message, record the `context_analysis` trace, emit the calling log, and
invoke the retry/fallback orchestrator. -/
def executeTask (env : Env) : ExecOut :=
  match env.run with
  | none => ⟨[], Except.error "Agent run not found"⟩
  | some run =>
    let a1 := Effect.logInfo :: (traceDecision env 0 StepType.provider_selection).actions
    if env.updateRunningOk then
      let a2 := a1 ++ [Effect.markRunning]
      if env.createInputMsgOk then
        let t := execAfterCtx env run
        ⟨a2 ++ ([Effect.createMessage Role.user] ++
          (traceDecision env 1 StepType.context_analysis).actions ++
          [Effect.logInfo, Effect.invokeOrchestrator] ++ t.actions), t.result⟩
      else ⟨a2, Except.error "message insert failed"⟩
    else ⟨a1, Except.error "run update failed"⟩

/-- One task execution as driven by `processQueue`: on any throw from
`executeTask`, the `catch` block emits an error log and updates the run to
`failed` carrying the error message. -/
def runTask (env : Env) : List Effect :=
  match executeTask env with
  | ⟨acts, Except.ok _⟩ => acts
  | ⟨acts, Except.error e⟩ => acts ++ [Effect.logError e, Effect.markFailed e]

/-- The run-status value written by an action, if any. -/
def statusOf : Effect → Option RunStatus
  | Effect.markRunning => some RunStatus.running
  | Effect.markCompleted _ => some RunStatus.completed
  | Effect.markFailed _ => some RunStatus.failed
  | _ => none

/-- The sequence of run-status updates performed by an execution. -/
def statusWrites (acts : List Effect) : List RunStatus :=
  acts.filterMap statusOf

/-- The step number of a persisted decision-trace row, if the effect is
one. -/
def stepOf : Effect → Option Nat
  | Effect.tracePersist n _ => some n
  | _ => none

/-- The step numbers of the decision traces actually persisted (rows
created by `createDecisionTrace`), in order. -/
def recordedSteps (acts : List Effect) : List Nat :=
  acts.filterMap stepOf

/-- Whether a status is terminal. -/
def isTerminal : RunStatus → Bool
  | RunStatus.completed => true
  | RunStatus.failed => true
  | RunStatus.cancelled => true
  | _ => false

/-- State of the `OrchestratorQueue` dispatcher: the FIFO backlog (run
ids), the `processing` flag, and `activeCount`. -/
structure QState where
  backlog : List Nat
  processing : Bool
  activeCount : Nat
deriving DecidableEq

/-- The `concurrency` field of `OrchestratorQueue` (`private concurrency = 2`). -/
def concurrency : Nat := 2

/-- Synchronous prefix of `OrchestratorQueue.processQueue`: return
immediately when `processing` is set or `activeCount` has reached the
concurrency field; otherwise shift the oldest backlog task (returning when
the backlog is empty) and claim the slot by incrementing `activeCount` and
setting `processing`. -/
def processQueue (s : QState) : QState :=
  if s.processing = true ∨ concurrency ≤ s.activeCount then s
  else
    match s.backlog with
    | [] => s
    | _ :: rest => ⟨rest, true, s.activeCount + 1⟩

/-- `OrchestratorQueue.enqueue`: push the task onto the backlog and run the
dispatch check; this whole section is synchronous, hence atomic. -/
def enqueue (s : QState) (t : Nat) : QState :=
  processQueue ⟨s.backlog ++ [t], s.processing, s.activeCount⟩

/-- The `finally` block of `processQueue`, run when the awaited
`executeTask` settles: decrement `activeCount` and clear `processing`
(the scheduled `setTimeout` re-check is a separate later step). -/
def completeSlot (s : QState) : QState :=
  ⟨s.backlog, false, s.activeCount - 1⟩

/-- One atomic step of the queue: an `enqueue` call, a scheduled dispatch
re-check, or the completion of the in-flight task. -/
inductive QStep : QState → QState → Prop
  | enq (s : QState) (t : Nat) : QStep s (enqueue s t)
  | recheck (s : QState) : QStep s (processQueue s)
  | complete (s : QState) : s.processing = true → QStep s (completeSlot s)

/-- Queue states reachable from the initial empty queue. -/
inductive Reachable : QState → Prop
  | init : Reachable ⟨[], false, 0⟩
  | step {s s' : QState} : Reachable s → QStep s s' → Reachable s'

/-- Circuit-breaker phase of one provider. -/
inductive CircuitPhase
  | closed
  | opened
  | halfOpen
deriving DecidableEq

/-- Modelled from the spec: the per-provider `CircuitState` of the retry
service, whose implementation (`server/services/retryService.ts`) is not
among the sources — {state ∈ {closed, open, half-open},
consecutiveFailures, cooldownUntil}. -/
structure CircuitState where
  phase : CircuitPhase
  consecutiveFailures : Nat
  cooldownUntil : Nat
deriving DecidableEq

/-- Modelled from the spec: the circuit consult performed before every
adapter call by the missing retry service.  A closed circuit allows the
call; an open circuit blocks it until the cooldown elapses, after which
the circuit moves to half-open and permits exactly one trial call; a
half-open circuit with its trial in flight blocks further calls. -/
def checkCircuit (cs : CircuitState) (now : Nat) : CircuitState × Bool :=
  match cs.phase with
  | CircuitPhase.closed => (cs, true)
  | CircuitPhase.opened =>
    if now < cs.cooldownUntil then (cs, false)
    else ({ cs with phase := CircuitPhase.halfOpen }, true)
  | CircuitPhase.halfOpen => (cs, false)

/-- The times at which a provider's adapter is actually called, given the
times of successive circuit consultations while no trial result has yet
been recorded. -/
def consultCalls (cs : CircuitState) : List Nat → List Nat
  | [] => []
  | t :: ts =>
    let r := checkCircuit cs t
    if r.2 then t :: consultCalls r.1 ts else consultCalls r.1 ts

/-- A concrete run record used for concrete executions. -/
def runOk : RunInfo := ⟨"openai", "gpt-4"⟩

/-- A first-call success response with a strictly positive cost. -/
def respOk : RetryResult :=
  { success := true, content := "hi", usage := some ⟨10, 20, 1⟩,
    usedProvider := "openai", attempts := 1, error := none, events := [] }

/-- Environment of a fully successful execution: run present, every
collaborator call succeeds, org present. -/
def envOk : Env :=
  { run := some runOk, traceOk := fun _ => true, updateRunningOk := true,
    createInputMsgOk := true, response := respOk, createOutputMsgOk := true,
    updateCompletedOk := true, trackCostOk := true, org := some (),
    createUsageOk := true, createAuditOk := true }

/-- Like `envOk`, but the audit-log insert after the completed update
throws. -/
def envAudit : Env := { envOk with createAuditOk := false }

/-- An aggregated failure from the retry service (all providers
exhausted). -/
def respFail : RetryResult :=
  { success := false, content := "", usage := none,
    usedProvider := "openai", attempts := 3, error := some "boom", events := [] }

/-- Environment where every configured provider fails. -/
def envExhausted : Env := { envOk with response := respFail }

/-- Like `envOk`, but the persistence of the trace with step number 2
throws. -/
def envGap : Env := { envOk with traceOk := fun n => decide (n ≠ 2) }

/-- A success response that carries no usage (so the cost estimate
defaults to "0"). -/
def respZero : RetryResult := { respOk with usage := none }

/-- Successful execution with no usage returned and an org lookup that
finds no row. -/
def envNoOrg : Env := { envOk with org := none, response := respZero }

/-- Successful execution with no usage returned; org present. -/
def envZeroCost : Env := { envOk with response := respZero }

/-- The run-level outcome of the success path of `executeTask`, as a
function of the environment alone (used to show the outcome does not
depend on trace persistence). -/
def successResultFn (env : Env) : Except String Unit :=
  if env.createOutputMsgOk then
    if env.updateCompletedOk then
      if 0 < costOf env.response then
        if env.trackCostOk then (finishTask env).result
        else Except.error "trackCost failed"
      else (finishTask env).result
    else Except.error "run update failed"
  else Except.error "message insert failed"

/-- The run-level outcome of `executeTask`, as a function of the
environment alone. -/
def resultFn (env : Env) : Except String Unit :=
  match env.run with
  | none => Except.error "Agent run not found"
  | some _ =>
    if env.updateRunningOk then
      if env.createInputMsgOk then
        if env.response.success then successResultFn env
        else Except.error (env.response.error.getD "Provider call failed")
      else Except.error "message insert failed"
    else Except.error "run update failed"

/-- Replace the trace-persistence outcome function of an environment. -/
def setTraceOk (env : Env) (f : Nat → Bool) : Env := { env with traceOk := f }

/-- Whether an effect is the `running` run update. -/
def isMarkRunning : Effect → Bool
  | Effect.markRunning => true
  | _ => false

/-- Whether an effect is a `provider_selection` trace record attempt. -/
def isProviderSelTrace : Effect → Bool
  | Effect.tracePersist _ StepType.provider_selection => true
  | Effect.traceSwallowed _ StepType.provider_selection => true
  | _ => false

theorem traceDecision_counter (env : Env) (c : Nat) (st : StepType) :
    (traceDecision env c st).counter = c + 1 := by
  unfold traceDecision createDecisionTrace
  by_cases h : env.traceOk (c + 1) <;> simp [h]

theorem traceDecision_actions (env : Env) (c : Nat) (st : StepType) :
    (traceDecision env c st).actions = [traceAct env (c + 1) st] := by
  unfold traceDecision createDecisionTrace traceAct
  by_cases h : env.traceOk (c + 1) <;> simp [h]

theorem traceDecision_result (env : Env) (c : Nat) (st : StepType) :
    (traceDecision env c st).result = Except.ok () := by
  unfold traceDecision createDecisionTrace
  by_cases h : env.traceOk (c + 1) <;> simp [h]

theorem processQueue_inv {s : QState}
    (h : s.activeCount = if s.processing then 1 else 0) :
    (processQueue s).activeCount = if (processQueue s).processing then 1 else 0 := by
  unfold processQueue
  split
  · exact h
  · next hp =>
    split
    · exact h
    · next x rest hb =>
      push_neg at hp
      have hpf : s.processing = false := by
        cases hpr : s.processing
        · rfl
        · exact absurd hpr hp.1
      rw [hpf] at h
      simp only [Bool.false_eq_true, if_false] at h
      simp [h]

theorem reachable_inv {s : QState} (h : Reachable s) :
    s.activeCount = if s.processing then 1 else 0 := by
  induction h with
  | init => rfl
  | step hr hstep ih =>
    cases hstep with
    | enq t =>
      exact processQueue_inv ih
    | recheck => exact processQueue_inv ih
    | complete hp =>
      rw [hp] at ih
      simp only [if_true] at ih
      simp [completeSlot, ih, hp]

/-- C5: for every sequence of enqueue calls (every reachable interleaving
of enqueues, dispatch re-checks and completions), the number of
concurrently active task executions never exceeds the concurrency bound
N = 2 of the code's `concurrency` field. -/
theorem c5_active_within_concurrency (s : QState) (h : Reachable s) :
    s.activeCount ≤ concurrency := by
  have hinv := reachable_inv h
  rw [hinv]
  cases s.processing <;> simp [concurrency]

theorem c5_active_within_concurrency_witness :
    (⟨[], false, 0⟩ : QState).activeCount ≤ concurrency :=
  c5_active_within_concurrency ⟨[], false, 0⟩ Reachable.init

/-- C9: at most one task pipeline is ever executing: in every reachable
queue state `activeCount` is at most 1 (despite the concurrency field
being 2), and while the `processing` flag is set a dispatch check
(`processQueue`) returns immediately without starting anything. -/
theorem c9_serial_execution (s : QState) (h : Reachable s) :
    s.activeCount ≤ 1 ∧ (s.processing = true → processQueue s = s) := by
  constructor
  · have hinv := reachable_inv h
    rw [hinv]
    cases s.processing <;> simp
  · intro hp
    unfold processQueue
    rw [if_pos (Or.inl hp)]

theorem c9_serial_execution_witness :
    (⟨[], true, 1⟩ : QState).activeCount ≤ 1 ∧
      ((⟨[], true, 1⟩ : QState).processing = true →
        processQueue ⟨[], true, 1⟩ = ⟨[], true, 1⟩) := by
  have h0 : enqueue ⟨[], false, 0⟩ 5 = ⟨[], true, 1⟩ := by decide
  have hre : Reachable (⟨[], true, 1⟩ : QState) := by
    rw [← h0]
    exact Reachable.step Reachable.init (QStep.enq ⟨[], false, 0⟩ 5)
  exact c9_serial_execution ⟨[], true, 1⟩ hre

/-- C1: exhibit of the code bug.  The state with one task executing
(`processing = true`, `activeCount = 1`) and a non-empty backlog is
reachable (enqueue a task, then enqueue a second while the first runs);
the backlog is non-empty and the active count 1 is strictly below the
concurrency bound 2, yet the dispatch check returns without popping the
oldest backlog task and starting it, because the `processing` flag is
set. -/
theorem c1_dispatch_blocked_with_free_slot :
    Reachable ⟨[7], true, 1⟩ ∧
      (⟨[7], true, 1⟩ : QState).backlog ≠ [] ∧
      (⟨[7], true, 1⟩ : QState).activeCount < concurrency ∧
      processQueue ⟨[7], true, 1⟩ = ⟨[7], true, 1⟩ := by
  refine ⟨?_, by decide, by decide, by decide⟩
  have h0 : enqueue ⟨[], false, 0⟩ 5 = ⟨[], true, 1⟩ := by decide
  have h1 : Reachable (⟨[], true, 1⟩ : QState) := by
    rw [← h0]
    exact Reachable.step Reachable.init (QStep.enq ⟨[], false, 0⟩ 5)
  have h2 : enqueue ⟨[], true, 1⟩ 7 = ⟨[7], true, 1⟩ := by decide
  rw [← h2]
  exact Reachable.step h1 (QStep.enq ⟨[], true, 1⟩ 7)

theorem consultCalls_halfOpen (f cd : Nat) (ts : List Nat) :
    consultCalls ⟨CircuitPhase.halfOpen, f, cd⟩ ts = [] := by
  induction ts with
  | nil => rfl
  | cons t ts ih => simp [consultCalls, checkCircuit, ih]

/-- C8: while provider P's circuit is open with cooldown end `T`, no
adapter call to P is made by any consult at a time before `T`; the first
consult at a time at or past `T` performs exactly one half-open trial
call, and no further call occurs while the trial is unresolved: the calls
made are exactly the first consult time that is at or past `T` (if any). -/
theorem c8_open_circuit_single_trial (f T : Nat) (ts : List Nat) :
    consultCalls ⟨CircuitPhase.opened, f, T⟩ ts =
      (ts.find? fun t => decide (T ≤ t)).toList := by
  induction ts with
  | nil => rfl
  | cons t ts ih =>
    by_cases h : T ≤ t
    · have hlt : ¬ t < T := by omega
      simp [consultCalls, checkCircuit, hlt, List.find?, h, consultCalls_halfOpen]
    · have hlt : t < T := by omega
      simp [consultCalls, checkCircuit, hlt, List.find?, h, ih]

theorem processEvents_fst (env : Env) (es : List AttemptEvent) :
    ∀ c, (processEvents env c es).1 = c + es.length := by
  induction es with
  | nil => intro c; simp [processEvents]
  | cons e es ih =>
    intro c
    simp only [processEvents, traceDecision_counter]
    rw [ih]
    simp [List.length_cons]
    omega

theorem mem_processEvents {env : Env} {a : Effect} {c : Nat} {es : List AttemptEvent}
    (h : a ∈ (processEvents env c es).2) :
    a = Effect.logWarning ∨ ∃ n st, a = traceAct env n st := by
  induction es generalizing c with
  | nil => simp [processEvents] at h
  | cons e es ih =>
    simp only [processEvents, traceDecision_actions, List.cons_append, List.mem_cons,
      List.singleton_append, List.mem_append] at h
    rcases h with h | h | h | h
    · exact Or.inl h
    · exact Or.inr ⟨_, _, h⟩
    · simp at h
    · exact ih h

theorem recordedSteps_append (l1 l2 : List Effect) :
    recordedSteps (l1 ++ l2) = recordedSteps l1 ++ recordedSteps l2 := by
  simp [recordedSteps]

theorem statusWrites_append (l1 l2 : List Effect) :
    statusWrites (l1 ++ l2) = statusWrites l1 ++ statusWrites l2 := by
  simp [statusWrites]

theorem statusOf_traceAct (env : Env) (n : Nat) (st : StepType) :
    statusOf (traceAct env n st) = none := by
  unfold traceAct
  split <;> rfl

theorem traceAct_pos {env : Env} {n : Nat} (h : env.traceOk n = true) (st : StepType) :
    traceAct env n st = Effect.tracePersist n st := by
  simp [traceAct, h]

theorem statusWrites_processEvents (env : Env) (c : Nat) (es : List AttemptEvent) :
    statusWrites (processEvents env c es).2 = [] := by
  rw [statusWrites, List.filterMap_eq_nil_iff]
  intro a ha
  rcases mem_processEvents ha with h | ⟨n, st, h⟩ <;> subst h
  · rfl
  · exact statusOf_traceAct env n st

theorem recordedSteps_processEvents (env : Env) (htr : ∀ n, env.traceOk n = true)
    (es : List AttemptEvent) : ∀ c,
    recordedSteps (processEvents env c es).2 = List.range' (c + 1) es.length := by
  induction es with
  | nil => intro c; simp [processEvents, recordedSteps]
  | cons e es ih =>
    intro c
    simp only [processEvents, traceDecision_actions, traceDecision_counter]
    rw [recordedSteps_append, ih, traceAct_pos (htr (c + 1))]
    simp [recordedSteps, stepOf, List.filterMap_cons, List.range'_succ]



theorem execSuccessTail_result (env : Env) (run : RunInfo) (c : Nat) :
    (execSuccessTail env run c).result = successResultFn env := by
  unfold execSuccessTail successResultFn
  by_cases h1 : env.createOutputMsgOk = true
  · by_cases h2 : env.updateCompletedOk = true
    · by_cases h3 : 0 < costOf env.response
      · by_cases h4 : env.trackCostOk = true
        · simp [h1, h2, h3, h4]
        · simp [h1, h2, h3, h4]
      · simp [h1, h2, h3]
    · simp [h1, h2]
  · simp [h1]

theorem execAfterCtx_result (env : Env) (run : RunInfo) :
    (execAfterCtx env run).result =
      (if env.response.success then successResultFn env
       else Except.error (env.response.error.getD "Provider call failed")) := by
  unfold execAfterCtx
  by_cases hs : env.response.success = true
  · simp [hs, execSuccessTail_result]
  · simp [hs]

theorem executeTask_result (env : Env) :
    (executeTask env).result = resultFn env := by
  rcases henv : env.run with _ | run
  · simp [executeTask, resultFn, henv]
  · by_cases h1 : env.updateRunningOk = true
    · by_cases h2 : env.createInputMsgOk = true
      · simp [executeTask, resultFn, henv, h1, h2, execAfterCtx_result]
      · simp [executeTask, resultFn, henv, h1, h2]
    · simp [executeTask, resultFn, henv, h1]


theorem resultFn_setTraceOk (env : Env) (f : Nat → Bool) :
    resultFn (setTraceOk env f) = resultFn env := rfl

@[simp] theorem statusWrites_nil : statusWrites [] = [] := rfl

@[simp] theorem statusWrites_cons (a : Effect) (l : List Effect) :
    statusWrites (a :: l) = (statusOf a).toList ++ statusWrites l := by
  cases h : statusOf a <;> simp [statusWrites, List.filterMap_cons, h]

@[simp] theorem recordedSteps_nil : recordedSteps [] = [] := rfl

@[simp] theorem recordedSteps_cons (a : Effect) (l : List Effect) :
    recordedSteps (a :: l) = (stepOf a).toList ++ recordedSteps l := by
  cases h : stepOf a <;> simp [recordedSteps, List.filterMap_cons, h]

@[simp] theorem statusOf_logInfo : statusOf Effect.logInfo = none := rfl

@[simp] theorem statusOf_logWarning : statusOf Effect.logWarning = none := rfl

@[simp] theorem statusOf_logSuccess : statusOf Effect.logSuccess = none := rfl

@[simp] theorem statusOf_logError (m : String) : statusOf (Effect.logError m) = none := rfl

@[simp] theorem statusOf_tracePersist (n : Nat) (st : StepType) :
    statusOf (Effect.tracePersist n st) = none := rfl

@[simp] theorem statusOf_traceSwallowed (n : Nat) (st : StepType) :
    statusOf (Effect.traceSwallowed n st) = none := rfl

@[simp] theorem statusOf_markRunning : statusOf Effect.markRunning = some RunStatus.running := rfl

@[simp] theorem statusOf_markCompleted (c : Rat) :
    statusOf (Effect.markCompleted c) = some RunStatus.completed := rfl

@[simp] theorem statusOf_markFailed (e : String) :
    statusOf (Effect.markFailed e) = some RunStatus.failed := rfl

@[simp] theorem statusOf_createMessage (r : Role) :
    statusOf (Effect.createMessage r) = none := rfl

@[simp] theorem statusOf_invokeOrchestrator : statusOf Effect.invokeOrchestrator = none := rfl

@[simp] theorem statusOf_trackCost (c : Rat) : statusOf (Effect.trackCost c) = none := rfl

@[simp] theorem statusOf_createUsageRecord : statusOf Effect.createUsageRecord = none := rfl

@[simp] theorem statusOf_createAuditLog : statusOf Effect.createAuditLog = none := rfl

@[simp] theorem stepOf_logInfo : stepOf Effect.logInfo = none := rfl

@[simp] theorem stepOf_logWarning : stepOf Effect.logWarning = none := rfl

@[simp] theorem stepOf_logSuccess : stepOf Effect.logSuccess = none := rfl

@[simp] theorem stepOf_logError (m : String) : stepOf (Effect.logError m) = none := rfl

@[simp] theorem stepOf_tracePersist (n : Nat) (st : StepType) :
    stepOf (Effect.tracePersist n st) = some n := rfl

@[simp] theorem stepOf_traceSwallowed (n : Nat) (st : StepType) :
    stepOf (Effect.traceSwallowed n st) = none := rfl

@[simp] theorem stepOf_markRunning : stepOf Effect.markRunning = none := rfl

@[simp] theorem stepOf_markCompleted (c : Rat) : stepOf (Effect.markCompleted c) = none := rfl

@[simp] theorem stepOf_markFailed (e : String) : stepOf (Effect.markFailed e) = none := rfl

@[simp] theorem stepOf_createMessage (r : Role) : stepOf (Effect.createMessage r) = none := rfl

@[simp] theorem stepOf_invokeOrchestrator : stepOf Effect.invokeOrchestrator = none := rfl

@[simp] theorem stepOf_trackCost (c : Rat) : stepOf (Effect.trackCost c) = none := rfl

@[simp] theorem stepOf_createUsageRecord : stepOf Effect.createUsageRecord = none := rfl

@[simp] theorem stepOf_createAuditLog : stepOf Effect.createAuditLog = none := rfl

theorem stepOf_traceAct (env : Env) (n : Nat) (st : StepType) :
    stepOf (traceAct env n st) = if env.traceOk n then some n else none := by
  unfold traceAct
  split <;> rfl

theorem mem_auditTail {env : Env} {a : Effect} (h : a ∈ (auditTail env).actions) :
    a = Effect.logSuccess ∨ a = Effect.createAuditLog := by
  unfold auditTail at h
  by_cases hA : env.createAuditOk = true <;> simp [hA] at h <;> tauto

theorem mem_finishTask {env : Env} {a : Effect} (h : a ∈ (finishTask env).actions) :
    a = Effect.createUsageRecord ∨ a = Effect.logSuccess ∨ a = Effect.createAuditLog := by
  unfold finishTask at h
  rcases ho : env.org with _ | o <;> rw [ho] at h
  · exact Or.inr (mem_auditTail h)
  · by_cases hU : env.createUsageOk = true
    · simp [hU] at h
      rcases h with h | h
      · exact Or.inl h
      · exact Or.inr (mem_auditTail h)
    · simp [hU] at h

@[simp] theorem statusWrites_finishTask (env : Env) :
    statusWrites (finishTask env).actions = [] := by
  rw [statusWrites, List.filterMap_eq_nil_iff]
  intro a ha
  rcases mem_finishTask ha with h | h | h <;> subst h <;> rfl

@[simp] theorem recordedSteps_finishTask (env : Env) :
    recordedSteps (finishTask env).actions = [] := by
  rw [recordedSteps, List.filterMap_eq_nil_iff]
  intro a ha
  rcases mem_finishTask ha with h | h | h <;> subst h <;> rfl

theorem statusWrites_execSuccessTail (env : Env) (run : RunInfo) (c : Nat) :
    statusWrites (execSuccessTail env run c).actions =
      if env.createOutputMsgOk then
        (if env.updateCompletedOk then [RunStatus.completed] else [])
      else [] := by
  unfold execSuccessTail
  have hfb : statusWrites
      (if env.response.usedProvider = run.provider then [] else [Effect.logInfo]) = [] := by
    by_cases hp : env.response.usedProvider = run.provider <;> simp [hp]
  by_cases h3 : env.createOutputMsgOk = true
  · by_cases h4 : env.updateCompletedOk = true
    · by_cases hc : 0 < costOf env.response
      · by_cases hT : env.trackCostOk = true <;>
          simp [h3, h4, hc, hT, statusWrites_append, traceDecision_actions,
            statusOf_traceAct, hfb]
      · simp [h3, h4, hc, statusWrites_append, traceDecision_actions,
          statusOf_traceAct, hfb]
    · simp [h3, h4, statusWrites_append, hfb]
  · simp [h3, hfb]

theorem statusWrites_executeTask (env : Env) (run : RunInfo) (hrun : env.run = some run)
    (h1 : env.updateRunningOk = true) (h2 : env.createInputMsgOk = true) :
    statusWrites (executeTask env).actions =
      RunStatus.running ::
        (if env.response.success = true then
          (if env.createOutputMsgOk then
            (if env.updateCompletedOk then [RunStatus.completed] else [])
           else [])
         else []) := by
  unfold executeTask execAfterCtx
  by_cases hs : env.response.success = true
  · simp [hrun, h1, h2, hs, traceDecision_actions, statusWrites_append,
      statusWrites_processEvents, statusOf_traceAct, statusWrites_execSuccessTail]
  · simp [hrun, h1, h2, hs, traceDecision_actions, statusWrites_append,
      statusWrites_processEvents, statusOf_traceAct]

theorem statusWrites_runTask (env : Env) :
    statusWrites (runTask env) =
      statusWrites (executeTask env).actions ++
        (match (executeTask env).result with
         | Except.ok _ => []
         | Except.error _ => [RunStatus.failed]) := by
  unfold runTask
  rcases hex : executeTask env with ⟨acts, res⟩
  rcases res with _ | e <;> simp [statusWrites_append]

/-- C7: a failure of the underlying `createDecisionTrace` persistence call
is swallowed: `traceDecision` always returns normally (`result` is `ok`)
while emitting exactly its one trace action, and the run-level outcome of
`executeTask` is entirely independent of which trace persistences fail, so
a trace-persistence failure never fails or retries the owning run. -/
theorem c7_trace_failure_swallowed :
    (∀ (env : Env) (c : Nat) (st : StepType),
        (traceDecision env c st).result = Except.ok () ∧
        (traceDecision env c st).actions = [traceAct env (c + 1) st]) ∧
    (∀ (env : Env) (f g : Nat → Bool),
        (executeTask (setTraceOk env f)).result =
          (executeTask (setTraceOk env g)).result) := by
  constructor
  · intro env c st
    exact ⟨traceDecision_result env c st, traceDecision_actions env c st⟩
  · intro env f g
    rw [executeTask_result, executeTask_result, resultFn_setTraceOk, resultFn_setTraceOk]

/-- C3 (amended): the run-status updates of any execution are monotonic
along running to a terminal state with at most one terminal write,
provided no persistence call made after the completed update (cost
tracking, usage-record insert, audit-log insert) throws: the possible
status-write sequences are [failed], [running, failed] and
[running, completed]. -/
theorem c3_status_monotonic (env : Env)
    (hT : env.trackCostOk = true) (hU : env.createUsageOk = true)
    (hA : env.createAuditOk = true) :
    statusWrites (runTask env) = [RunStatus.failed] ∨
    statusWrites (runTask env) = [RunStatus.running, RunStatus.failed] ∨
    statusWrites (runTask env) = [RunStatus.running, RunStatus.completed] := by
  rw [statusWrites_runTask, executeTask_result]
  rcases henv : env.run with _ | run
  · left
    simp [executeTask, henv, resultFn]
  · by_cases h1 : env.updateRunningOk = true
    case neg =>
      left
      simp [executeTask, henv, h1, resultFn, traceDecision_actions, statusOf_traceAct]
    case pos =>
      by_cases h2 : env.createInputMsgOk = true
      case neg =>
        right; left
        simp [executeTask, henv, h1, h2, resultFn, traceDecision_actions, statusOf_traceAct]
      case pos =>
        rw [statusWrites_executeTask env run henv h1 h2]
        by_cases hs : env.response.success = true
        case neg =>
          right; left
          simp [resultFn, henv, h1, h2, hs]
        case pos =>
          by_cases h3 : env.createOutputMsgOk = true
          case neg =>
            right; left
            simp [resultFn, successResultFn, henv, h1, h2, hs, h3]
          case pos =>
            by_cases h4 : env.updateCompletedOk = true
            case neg =>
              right; left
              simp [resultFn, successResultFn, henv, h1, h2, hs, h3, h4]
            case pos =>
              right; right
              have hfin : (finishTask env).result = Except.ok () := by
                rcases ho : env.org with _ | o <;>
                  simp [finishTask, auditTail, ho, hU, hA]
              by_cases hc : 0 < costOf env.response <;>
                simp [resultFn, successResultFn, henv, h1, h2, hs, h3, h4, hc, hT, hfin]

theorem c3_status_monotonic_witness :
    statusWrites (runTask envOk) = [RunStatus.failed] ∨
    statusWrites (runTask envOk) = [RunStatus.running, RunStatus.failed] ∨
    statusWrites (runTask envOk) = [RunStatus.running, RunStatus.completed] :=
  c3_status_monotonic envOk rfl rfl rfl

/-- C3 counterexample: with every collaborator call succeeding except the
audit-log insert made after the completed update, the execution writes the
status sequence [running, completed, failed]: a terminal status, once set,
is changed afterwards (two terminal writes). -/
theorem c3_terminal_status_overwritten :
    statusWrites (runTask envAudit) =
      [RunStatus.running, RunStatus.completed, RunStatus.failed] ∧
    ((statusWrites (runTask envAudit)).filter isTerminal).length = 2 := by
  constructor <;> rfl



/-- C2 counterexample: on a fully successful concrete execution the claimed
step order is false — the claim puts the `running` update (and the input
message) before the `provider_selection` trace, but the code records the
`provider_selection` trace at position 1, before the `running` update at
position 2. -/
theorem c2_claimed_order_false :
    ¬ ∃ i j, (executeTask envOk).actions.findIdx? isMarkRunning = some i ∧
      (executeTask envOk).actions.findIdx? isProviderSelTrace = some j ∧ i < j := by
  intro h
  obtain ⟨i, j, hi, hj, hij⟩ := h
  have hvi : (executeTask envOk).actions.findIdx? isMarkRunning = some 2 := by decide
  have hvj : (executeTask envOk).actions.findIdx? isProviderSelTrace = some 1 := by decide
  rw [hvi] at hi
  rw [hvj] at hj
  have hi2 : i = 2 := (Option.some.inj hi).symm
  have hj2 : j = 1 := (Option.some.inj hj).symm
  omega

/-- C2 (amended): for every task whose run lookup succeeds and whose
`running` update and input-message insert do not throw, the pipeline
performs its steps in this order: record the `provider_selection` decision
trace, mark the Run `running`, persist the input message, record the
`context_analysis` decision trace, and then invoke the retry/fallback
orchestrator. -/
theorem c2_pipeline_step_order (env : Env) (run : RunInfo)
    (hrun : env.run = some run) (h1 : env.updateRunningOk = true)
    (h2 : env.createInputMsgOk = true) :
    ∃ rest, (executeTask env).actions =
      [Effect.logInfo, traceAct env 1 StepType.provider_selection, Effect.markRunning,
       Effect.createMessage Role.user, traceAct env 2 StepType.context_analysis,
       Effect.logInfo, Effect.invokeOrchestrator] ++ rest := by
  refine ⟨(execAfterCtx env run).actions, ?_⟩
  simp [executeTask, hrun, h1, h2, traceDecision_actions]

theorem c2_pipeline_step_order_witness :
    ∃ rest, (executeTask envOk).actions =
      [Effect.logInfo, traceAct envOk 1 StepType.provider_selection, Effect.markRunning,
       Effect.createMessage Role.user, traceAct envOk 2 StepType.context_analysis,
       Effect.logInfo, Effect.invokeOrchestrator] ++ rest :=
  c2_pipeline_step_order envOk runOk rfl rfl rfl

theorem recordedSteps_runTask (env : Env) :
    recordedSteps (runTask env) = recordedSteps (executeTask env).actions := by
  unfold runTask
  rcases hex : executeTask env with ⟨acts, res⟩
  rcases res with _ | e <;> simp [recordedSteps_append]

theorem range_helper2 (len : Nat) :
    (1 : Nat) :: 2 :: List.range' 3 len = List.range' 1 (2 + len) := by
  have h := List.range'_append_1 1 2 len
  rw [Nat.add_comm 2 len, ← h]
  rfl

theorem range_helper1 (len : Nat) :
    (1 : Nat) :: 2 :: (List.range' 3 len ++ [2 + len + 1]) = List.range' 1 (2 + len + 1) := by
  have h1 : [2 + len + 1] = List.range' (3 + len) 1 := by
    rw [List.range'_one]
    congr 1
    omega
  rw [h1, List.range'_append_1 3 len 1, range_helper2 (1 + len)]
  congr 1
  omega

theorem recordedSteps_execSuccessTail (env : Env) (run : RunInfo) (c : Nat)
    (htr : env.traceOk (c + 1) = true) :
    recordedSteps (execSuccessTail env run c).actions =
      if env.createOutputMsgOk then
        (if env.updateCompletedOk then [c + 1] else [])
      else [] := by
  unfold execSuccessTail
  have hfb : recordedSteps
      (if env.response.usedProvider = run.provider then [] else [Effect.logInfo]) = [] := by
    by_cases hp : env.response.usedProvider = run.provider <;> simp [hp]
  by_cases h3 : env.createOutputMsgOk = true
  · by_cases h4 : env.updateCompletedOk = true
    · by_cases hc : 0 < costOf env.response
      · by_cases hT : env.trackCostOk = true <;>
          simp [h3, h4, hc, hT, recordedSteps_append, traceDecision_actions,
            traceAct_pos htr, hfb]
      · simp [h3, h4, hc, recordedSteps_append, traceDecision_actions,
          traceAct_pos htr, hfb]
    · simp [h3, h4, recordedSteps_append, hfb]
  · simp [h3, hfb]

theorem recordedSteps_executeTask (env : Env) (run : RunInfo)
    (htr : ∀ n, env.traceOk n = true) (hrun : env.run = some run)
    (h1 : env.updateRunningOk = true) (h2 : env.createInputMsgOk = true) :
    recordedSteps (executeTask env).actions =
      List.range' 1 (2 + env.response.events.length +
        (if env.response.success = true then
          (if env.createOutputMsgOk then (if env.updateCompletedOk then 1 else 0) else 0)
         else 1)) := by
  have hlen := processEvents_fst env env.response.events 2
  unfold executeTask execAfterCtx
  by_cases hs : env.response.success = true
  · by_cases h3 : env.createOutputMsgOk = true
    · by_cases h4 : env.updateCompletedOk = true
      · simp [hrun, h1, h2, hs, h3, h4, traceDecision_actions,
          traceAct_pos (htr 1), traceAct_pos (htr 2), recordedSteps_append,
          recordedSteps_processEvents env htr,
          recordedSteps_execSuccessTail env run _ (htr _), hlen]
        exact range_helper1 env.response.events.length
      · simp [hrun, h1, h2, hs, h3, h4, traceDecision_actions,
          traceAct_pos (htr 1), traceAct_pos (htr 2), recordedSteps_append,
          recordedSteps_processEvents env htr,
          recordedSteps_execSuccessTail env run _ (htr _), hlen]
        rw [← range_helper2 env.response.events.length]
    · simp [hrun, h1, h2, hs, h3, traceDecision_actions,
        traceAct_pos (htr 1), traceAct_pos (htr 2), recordedSteps_append,
        recordedSteps_processEvents env htr,
        recordedSteps_execSuccessTail env run _ (htr _), hlen]
      rw [← range_helper2 env.response.events.length]
  · simp [hrun, h1, h2, hs, traceDecision_actions,
      traceAct_pos (htr 1), traceAct_pos (htr 2), recordedSteps_append,
      recordedSteps_processEvents env htr, traceAct_pos (htr _), hlen]
    exact range_helper1 env.response.events.length

/-- C4 counterexample: when the persistence of the trace with step number 2
fails (and is swallowed), the execution persists exactly the step numbers
[1, 3]: the counter is incremented before the failed insert, so the
recorded stepNumbers have a gap and equal 1..K for no K. -/
theorem c4_step_gap_on_trace_failure :
    recordedSteps (runTask envGap) = [1, 3] ∧
    ∀ K, recordedSteps (runTask envGap) ≠ List.range' 1 K := by
  refine ⟨rfl, ?_⟩
  intro K h
  have h13 : recordedSteps (runTask envGap) = [1, 3] := rfl
  rw [h13] at h
  have hl := congrArg List.length h
  simp only [List.length_range', List.length_cons, List.length_nil] at hl
  have hK : K = 2 := by omega
  subst hK
  exact absurd h (by decide)

/-- C4 (amended): within a single execution in which every trace
persistence succeeds, the recorded stepNumbers form exactly the gap-free,
strictly increasing sequence 1..K.  (A failed persistence still consumes
its step number, leaving a gap, and re-executing the same runId resets the
counter to 0, so the claim's two extra cases fail.) -/
theorem c4_steps_initial_segment (env : Env) (htr : ∀ n, env.traceOk n = true) :
    ∃ K, recordedSteps (runTask env) = List.range' 1 K := by
  rw [recordedSteps_runTask]
  rcases henv : env.run with _ | run
  · exact ⟨0, by simp [executeTask, henv]⟩
  · by_cases h1 : env.updateRunningOk = true
    case neg =>
      refine ⟨1, ?_⟩
      simp [executeTask, henv, h1, traceDecision_actions, traceAct_pos (htr 1)]
    case pos =>
      by_cases h2 : env.createInputMsgOk = true
      case neg =>
        refine ⟨1, ?_⟩
        simp [executeTask, henv, h1, h2, traceDecision_actions, traceAct_pos (htr 1)]
      case pos =>
        exact ⟨_, recordedSteps_executeTask env run htr henv h1 h2⟩

theorem c4_steps_initial_segment_witness :
    ∃ K, recordedSteps (runTask envOk) = List.range' 1 K :=
  c4_steps_initial_segment envOk (fun _ => rfl)

theorem traceAct_cases (env : Env) (n : Nat) (st : StepType) :
    traceAct env n st = Effect.tracePersist n st ∨
    traceAct env n st = Effect.traceSwallowed n st := by
  unfold traceAct
  split <;> simp

@[simp] theorem trackCost_eq_traceAct_iff (env : Env) (n : Nat) (st : StepType) (q : Rat) :
    (Effect.trackCost q = traceAct env n st) = False := by
  unfold traceAct
  split <;> simp

@[simp] theorem traceAct_eq_trackCost_iff (env : Env) (n : Nat) (st : StepType) (q : Rat) :
    (traceAct env n st = Effect.trackCost q) = False := by
  unfold traceAct
  split <;> simp

@[simp] theorem usageRecord_eq_traceAct_iff (env : Env) (n : Nat) (st : StepType) :
    (Effect.createUsageRecord = traceAct env n st) = False := by
  unfold traceAct
  split <;> simp

@[simp] theorem traceAct_eq_usageRecord_iff (env : Env) (n : Nat) (st : StepType) :
    (traceAct env n st = Effect.createUsageRecord) = False := by
  unfold traceAct
  split <;> simp

theorem trackCost_not_mem_processEvents (env : Env) (c : Nat) (es : List AttemptEvent)
    (q : Rat) : Effect.trackCost q ∉ (processEvents env c es).2 := by
  intro h
  rcases mem_processEvents h with h | ⟨n, st, h⟩
  · exact absurd h (by simp)
  · simp at h

theorem usageRecord_not_mem_processEvents (env : Env) (c : Nat) (es : List AttemptEvent) :
    Effect.createUsageRecord ∉ (processEvents env c es).2 := by
  intro h
  rcases mem_processEvents h with h | ⟨n, st, h⟩
  · exact absurd h (by simp)
  · simp at h

/-- C6: when the orchestrator's aggregated result is unsuccessful (all
configured providers failed), the pipeline records an `error_handling`
decision trace (step number events+3), the Run is updated to `failed`
carrying the aggregated error, an error log event is emitted, no usage
record is created, and `trackCost` is never invoked for the run. -/
theorem c6_total_exhaustion_effects (env : Env) (run : RunInfo)
    (hrun : env.run = some run) (h1 : env.updateRunningOk = true)
    (h2 : env.createInputMsgOk = true) (hs : env.response.success = false) :
    traceAct env (env.response.events.length + 3) StepType.error_handling ∈ runTask env ∧
    statusWrites (runTask env) = [RunStatus.running, RunStatus.failed] ∧
    Effect.logError (env.response.error.getD "Provider call failed") ∈ runTask env ∧
    Effect.markFailed (env.response.error.getD "Provider call failed") ∈ runTask env ∧
    (∀ q, Effect.trackCost q ∉ runTask env) ∧
    Effect.createUsageRecord ∉ runTask env := by
  have harith : 2 + env.response.events.length + 1 = env.response.events.length + 3 := by
    omega
  have hshape : runTask env =
      ([Effect.logInfo, traceAct env 1 StepType.provider_selection, Effect.markRunning,
        Effect.createMessage Role.user, traceAct env 2 StepType.context_analysis,
        Effect.logInfo, Effect.invokeOrchestrator] ++
        ((processEvents env 2 env.response.events).2 ++
          [traceAct env (env.response.events.length + 3) StepType.error_handling])) ++
        [Effect.logError (env.response.error.getD "Provider call failed"),
         Effect.markFailed (env.response.error.getD "Provider call failed")] := by
    unfold runTask executeTask execAfterCtx
    simp [hrun, h1, h2, hs, traceDecision_actions, processEvents_fst, harith]
  refine ⟨?_, ?_, ?_, ?_, ?_, ?_⟩
  · rw [hshape]; simp
  · rw [hshape]
    simp [statusWrites_append, statusWrites_processEvents, statusOf_traceAct]
  · rw [hshape]; simp
  · rw [hshape]; simp
  · intro q
    rw [hshape]
    simp [List.mem_append, List.mem_cons, trackCost_not_mem_processEvents]
  · rw [hshape]
    simp [List.mem_append, List.mem_cons, usageRecord_not_mem_processEvents]

theorem c6_total_exhaustion_effects_witness :
    traceAct envExhausted (envExhausted.response.events.length + 3)
        StepType.error_handling ∈ runTask envExhausted ∧
    statusWrites (runTask envExhausted) = [RunStatus.running, RunStatus.failed] ∧
    Effect.logError (envExhausted.response.error.getD "Provider call failed")
        ∈ runTask envExhausted ∧
    Effect.markFailed (envExhausted.response.error.getD "Provider call failed")
        ∈ runTask envExhausted ∧
    (∀ q, Effect.trackCost q ∉ runTask envExhausted) ∧
    Effect.createUsageRecord ∉ runTask envExhausted :=
  c6_total_exhaustion_effects envExhausted runOk rfl rfl rfl rfl

theorem trackCost_mem_execSuccessTail {env : Env} {run : RunInfo} {c : Nat} {q : Rat}
    (h : Effect.trackCost q ∈ (execSuccessTail env run c).actions) :
    q = costOf env.response ∧ 0 < costOf env.response := by
  have hfb : Effect.trackCost q ∉
      (if env.response.usedProvider = run.provider then [] else [Effect.logInfo]) := by
    split <;> simp
  have hfin : Effect.trackCost q ∉ (finishTask env).actions := by
    intro hh
    rcases mem_finishTask hh with h' | h' | h' <;> simp at h'
  unfold execSuccessTail at h
  by_cases h3 : env.createOutputMsgOk = true
  · by_cases h4 : env.updateCompletedOk = true
    · by_cases hc : 0 < costOf env.response
      · by_cases hT : env.trackCostOk = true
        · simp [h3, h4, hc, hT, List.mem_append, List.mem_cons,
            traceDecision_actions, hfb, hfin] at h
          exact ⟨h, hc⟩
        · simp [h3, h4, hc, hT, List.mem_append, List.mem_cons,
            traceDecision_actions, hfb] at h
          exact ⟨h, hc⟩
      · simp [h3, h4, hc, List.mem_append, List.mem_cons,
          traceDecision_actions, hfb, hfin] at h
    · simp [h3, h4, List.mem_append, List.mem_cons, hfb] at h
  · simp [h3, hfb] at h

theorem trackCost_mem_executeTask {env : Env} {q : Rat}
    (h : Effect.trackCost q ∈ (executeTask env).actions) :
    q = costOf env.response ∧ 0 < costOf env.response ∧
      env.response.success = true := by
  unfold executeTask execAfterCtx at h
  rcases henv : env.run with _ | run
  · simp [henv] at h
  · simp only [henv] at h
    by_cases h1 : env.updateRunningOk = true
    · by_cases h2 : env.createInputMsgOk = true
      · by_cases hs : env.response.success = true
        · simp [h1, h2, hs, List.mem_append, List.mem_cons,
            traceDecision_actions, trackCost_not_mem_processEvents] at h
          have := trackCost_mem_execSuccessTail h
          exact ⟨this.1, this.2, hs⟩
        · simp [h1, h2, hs, List.mem_append, List.mem_cons,
            traceDecision_actions, trackCost_not_mem_processEvents] at h
      · simp [h1, h2, traceDecision_actions] at h
    · simp [h1, traceDecision_actions] at h

theorem mem_runTask {env : Env} {a : Effect} (h : a ∈ (executeTask env).actions) :
    a ∈ runTask env := by
  unfold runTask
  rcases hex : executeTask env with ⟨acts, res⟩
  rw [hex] at h
  rcases res with _ | e <;> simp_all

theorem runTask_eq (env : Env) :
    runTask env = (executeTask env).actions ++
      (match (executeTask env).result with
       | Except.ok _ => []
       | Except.error e => [Effect.logError e, Effect.markFailed e]) := by
  unfold runTask
  rcases executeTask env with ⟨acts, res⟩
  rcases res with e | u <;> simp

theorem trackCost_mem_runTask {env : Env} {q : Rat}
    (h : Effect.trackCost q ∈ runTask env) :
    q = costOf env.response ∧ 0 < costOf env.response ∧
      env.response.success = true := by
  rw [runTask_eq] at h
  rcases List.mem_append.1 h with h | h
  · exact trackCost_mem_executeTask h
  · rcases hres : (executeTask env).result with e | u <;> rw [hres] at h <;> simp at h

/-- C10 (amended): `trackCost` is invoked only with the parsed cost
estimate of a successful response and only when that estimate is strictly
positive; on a successful run whose estimate is absent or not greater
than 0, `trackCost` is not invoked while the completed Run update is still
written, and the usage record is still written provided the org lookup
returns the org. -/
theorem c10_trackCost_gating :
    (∀ (env : Env) (q : Rat), Effect.trackCost q ∈ runTask env →
        q = costOf env.response ∧ 0 < costOf env.response ∧
        env.response.success = true) ∧
    (∀ (env : Env) (run : RunInfo), env.run = some run →
        env.updateRunningOk = true → env.createInputMsgOk = true →
        env.response.success = true → env.createOutputMsgOk = true →
        env.updateCompletedOk = true → costOf env.response ≤ 0 →
        (∀ q, Effect.trackCost q ∉ runTask env) ∧
        Effect.markCompleted (costOf env.response) ∈ runTask env ∧
        (env.org = some () → env.createUsageOk = true →
          Effect.createUsageRecord ∈ runTask env)) := by
  constructor
  · intro env q h
    exact trackCost_mem_runTask h
  · intro env run hrun h1 h2 hs h3 h4 hc
    have hcn : ¬ 0 < costOf env.response := not_lt.2 hc
    refine ⟨?_, ?_, ?_⟩
    · intro q hq
      exact absurd (trackCost_mem_runTask hq).2.1 hcn
    · apply mem_runTask
      unfold executeTask execAfterCtx execSuccessTail
      simp [hrun, h1, h2, hs, h3, h4, hcn, traceDecision_actions]
    · intro ho hU
      apply mem_runTask
      unfold executeTask execAfterCtx execSuccessTail
      simp [hrun, h1, h2, hs, h3, h4, hcn, traceDecision_actions, finishTask, ho, hU]

theorem c10_trackCost_gating_witness :
    ((1 : Rat) = costOf envOk.response ∧ 0 < costOf envOk.response ∧
      envOk.response.success = true) ∧
    ((∀ q, Effect.trackCost q ∉ runTask envZeroCost) ∧
      Effect.markCompleted (costOf envZeroCost.response) ∈ runTask envZeroCost ∧
      (envZeroCost.org = some () → envZeroCost.createUsageOk = true →
        Effect.createUsageRecord ∈ runTask envZeroCost)) :=
  ⟨c10_trackCost_gating.1 envOk 1 (by decide),
   c10_trackCost_gating.2 envZeroCost runOk rfl rfl rfl rfl rfl rfl (by decide)⟩

/-- C10 counterexample: a successful concrete run whose response carries no
usage (cost estimate defaults to "0") and whose org lookup returns no row
completes normally with the completed update written and no trackCost
call, but the usage record is NOT written — contradicting the claim that
the usage record is still written. -/
theorem c10_no_usage_record_when_org_missing :
    (executeTask envNoOrg).result = Except.ok () ∧
    costOf envNoOrg.response = 0 ∧
    Effect.markCompleted 0 ∈ (executeTask envNoOrg).actions ∧
    (∀ q, Effect.trackCost q ∉ (executeTask envNoOrg).actions) ∧
    Effect.createUsageRecord ∉ (executeTask envNoOrg).actions := by
  refine ⟨rfl, rfl, by decide, ?_, by decide⟩
  intro q hq
  have h2 := (trackCost_mem_executeTask hq).2.1
  rw [show costOf envNoOrg.response = 0 from rfl] at h2
  exact absurd h2 (by norm_num)
